import Mathlib

/-!
Habit-Tracker gamification calculator: verification development

Shallow embedding of the pure scoring / streak / rank / achievement rules of the
habit-tracker repository, with theorems checking the specification's claims.

Conventions of the embedding:
* JavaScript numbers are modelled exactly: XP values and streak counts are
  natural numbers, day-differences and rewards that may be negative are
  integers, and fractional arithmetic (`Math.round`, divisions in progress
  computations) is carried out in `ℚ`.  All constants appearing in the source
  are exactly representable as IEEE doubles, so the rational model agrees with
  the JavaScript evaluation on the inputs the theorems mention.
* Calendar days are integers (days since an arbitrary epoch); `startOfDay`
  truncation is implicit in that choice, and `differenceInDays a b = a - b`,
  `subDays d 1 = d - 1`.
* Database reads become explicit parameters: a habit's completion history is
  the descending-sorted list of (date-truncated) days that have a
  `completed = true` record, and the user-level "some active habit completed
  on day d" query becomes a predicate `ℤ → Bool`.
-/

namespace HabitTracker

/-- JavaScript `Math.round` on an exact rational: round half toward +∞. -/
def jsRound (q : ℚ) : ℤ := ⌊q + 1/2⌋

/-- JavaScript array indexing `l[i]` for a possibly out-of-range or negative
integer index: `none` models `undefined`. -/
def jsIndex (l : List ℚ) (i : ℤ) : Option ℚ :=
  if 0 ≤ i then l.get? i.toNat else none

namespace Habits
/- Helpers of the habits router (src/unnamed/part_007). -/

/-- The multiplier table `[0.5, 0.75, 1, 1.5, 2]` of `calculateXPReward`. -/
def multiplierTable : List ℚ := [1/2, 3/4, 1, 3/2, 2]

/-- The lookup `[0.5, 0.75, 1, 1.5, 2][difficulty - 1] || 1`: an out-of-range
(or falsy) lookup falls back to `1`. -/
def multiplier (difficulty : ℤ) : ℚ :=
  match jsIndex multiplierTable (difficulty - 1) with
  | some m => if m = 0 then 1 else m
  | none => 1

/-- The habits router's `calculateXPReward`:
`Math.round(baseXP * multiplier * 10) / 10 * 10` with `baseXP = 10`. -/
def calculateXPReward (difficulty : ℤ) : ℚ :=
  let baseXP : ℚ := 10
  (jsRound (baseXP * multiplier difficulty * 10) : ℚ) / 10 * 10

/-- The loop body of `calculateStreak`: walk the descending completion dates
with a cursor `currentDate`; `diffDays = currentDate - completionDate`;
`diffDays = 0` counts and moves the cursor back a day, `diffDays = 1` also
counts (one missing day bridged) and continues from the record's previous day,
anything else breaks out of the loop. -/
def calcStreakGo : List ℤ → ℤ → ℕ → ℕ
  | [], _, streak => streak
  | c :: cs, currentDate, streak =>
    let diffDays := currentDate - c
    if diffDays = 0 then calcStreakGo cs (currentDate - 1) (streak + 1)
    else if diffDays = 1 then calcStreakGo cs (c - 1) (streak + 1)
    else streak

/-- Per-habit `calculateStreak`: `completions` is the descending-sorted list of days with
a `completed = true` record for the habit (the `findMany` result), `today` the
date-truncated current day.  Empty history returns 0. -/
def calculateStreak (completions : List ℤ) (today : ℤ) : ℕ :=
  if completions = [] then 0 else calcStreakGo completions today 0

/-- The day-by-day loop of `updateUserStreak` (`for i in 0..364`): `f d` says
whether at least one completed record exists on day `d`; an empty day with
`i > 0` breaks, the empty first day (`i = 0`, today) is skipped over. -/
def userStreakGo (f : ℤ → Bool) : ℕ → ℕ → ℤ → ℕ → ℕ
  | 0, _, _, streak => streak
  | rem + 1, i, currentDate, streak =>
    if f currentDate then userStreakGo f rem (i + 1) (currentDate - 1) (streak + 1)
    else if 0 < i then streak
    else userStreakGo f rem (i + 1) (currentDate - 1) streak

/-- The streak computed by `updateUserStreak` (365-day window starting today). -/
def updateUserStreakCount (f : ℤ → Bool) (today : ℤ) : ℕ :=
  userStreakGo f 365 0 today 0

/-- The streak fields of the persisted user row. -/
structure UserRec where
  currentStreak : ℕ
  longestStreak : ℕ
deriving DecidableEq

/-- The `updateUserStreak` function: returns the user row as persisted.  When the user has
no active habit the function returns early and the row is untouched; otherwise
`currentStreak` becomes the recomputed streak and
`longestStreak = Math.max(streak, longestStreak)`. -/
def updateUserStreak (hasActiveHabits : Bool) (f : ℤ → Bool) (today : ℤ)
    (u : UserRec) : UserRec :=
  if hasActiveHabits then
    let streak := updateUserStreakCount f today
    { currentStreak := streak, longestStreak := max streak u.longestStreak }
  else u

/-- An achievement row: `criteriaConfig` is read as `{ threshold }`. -/
structure Achievement where
  id : String
  criteriaType : String
  threshold : ℤ
  xpReward : ℤ
deriving DecidableEq

/-- The user aggregates `checkAchievements` evaluates criteria against. -/
structure UserStats where
  currentStreak : ℕ
  totalCompletions : ℕ
deriving DecidableEq

/-- The `switch (achievement.criteriaType)` of `checkAchievements`:
`streak` compares `user.currentStreak`, `total_completions` compares the
completed-record count, any other criteria type never unlocks. -/
def shouldUnlock (a : Achievement) (stats : UserStats) : Bool :=
  if a.criteriaType = "streak" then decide (a.threshold ≤ (stats.currentStreak : ℤ))
  else if a.criteriaType = "total_completions" then
    decide (a.threshold ≤ (stats.totalCompletions : ℤ))
  else false

/-- The `checkAchievements` function: the candidate set is the catalog minus already
unlocked ids (`id: { notIn: unlockedIds }`); the returned list holds the
achievements the loop unlocks (creates a `userAchievement` row for). -/
def checkAchievements (catalog : List Achievement) (unlockedIds : List String)
    (stats : UserStats) : List Achievement :=
  (catalog.filter fun a => decide (a.id ∉ unlockedIds)).filter
    fun a => shouldUnlock a stats

/-- The users router's `calculateLevel` in the same source file:
`Math.floor(Math.sqrt(xp / 50)) + 1` (for natural `xp`,
`⌊√(xp/50)⌋ = Nat.sqrt (xp / 50)`). -/
def calculateLevel (xp : ℕ) : ℕ :=
  Nat.sqrt (xp / 50) + 1

end Habits

namespace Gamification
/- Helpers of the gamification router (src/unnamed/part_008). -/

/-- A `RANKS` entry. -/
structure Rank where
  id : String
  name : String
  minXP : ℕ
  color : String
  icon : String
deriving DecidableEq

def unrankedR : Rank := ⟨"unranked", "Unranked", 0, "#9CA3AF", "🌱"⟩
def bronzeR : Rank := ⟨"bronze", "Bronze", 100, "#CD7F32", "🥉"⟩
def silverR : Rank := ⟨"silver", "Silver", 300, "#C0C0C0", "🥈"⟩
def goldR : Rank := ⟨"gold", "Gold", 600, "#FFD700", "🥇"⟩
def platinumR : Rank := ⟨"platinum", "Platinum", 1000, "#E5E4E2", "💎"⟩
def diamondR : Rank := ⟨"diamond", "Diamond", 1500, "#B9F2FF", "💠"⟩
def masterR : Rank := ⟨"master", "Master", 2200, "#9B59B6", "👑"⟩
def championR : Rank := ⟨"champion", "Champion", 3000, "#E74C3C", "🏆"⟩
def legendR : Rank := ⟨"legend", "Legend", 4000, "#F39C12", "⭐"⟩

/-- The `RANKS` constant. -/
def RANKS : List Rank :=
  [unrankedR, bronzeR, silverR, goldR, platinumR, diamondR, masterR, championR, legendR]

/-- The downward loop of `getRank` (`for i = length-1 downto 0`): later table
entries are tried before earlier ones; `none` when no entry has `minXP ≤ xp`. -/
def findFromTop (xp : ℕ) : List Rank → Option Rank
  | [] => none
  | r :: rs =>
    match findFromTop xp rs with
    | some hit => some hit
    | none => if r.minXP ≤ xp then some r else none

/-- The `getRank` function over an explicit table: the downward scan, falling back to
`table[0]` (`none` models the `undefined` of an empty table). -/
def getRank (xp : ℕ) (table : List Rank) : Option Rank :=
  match findFromTop xp table with
  | some r => some r
  | none => table.head?

/-- The object `getNextRank` returns: `{...nextRank, xpRequired, progress}`
(the spread rank kept as a nested field). -/
structure NextRankInfo where
  rank : Rank
  xpRequired : ℤ
  progress : ℤ
deriving DecidableEq

/-- The `getNextRank` function: finds the current rank's index by id, returns `none` at the
last index, otherwise the following entry with
`xpRequired = nextRank.minXP - xp` and
`progress = Math.round((xp - cur.minXP) / (next.minXP - cur.minXP) * 100)`.
(The `match ... | none => none` on `getRank`/`get?` covers branches that are
unreachable for the concrete `RANKS` table.) -/
def getNextRank (xp : ℕ) : Option NextRankInfo :=
  match getRank xp RANKS with
  | none => none
  | some currentRank =>
    let currentIndex := RANKS.findIdx fun r => r.id == currentRank.id
    if currentIndex = RANKS.length - 1 then none
    else
      match RANKS.get? (currentIndex + 1) with
      | none => none
      | some nextRank =>
        some { rank := nextRank
               xpRequired := (nextRank.minXP : ℤ) - (xp : ℤ)
               progress := jsRound (((xp : ℚ) - (currentRank.minXP : ℚ)) /
                 ((nextRank.minXP : ℚ) - (currentRank.minXP : ℚ)) * 100) }

/-- The gamification router's `calculateLevel`:
`Math.floor(Math.sqrt(xp / 50)) + 1`. -/
def calculateLevel (xp : ℕ) : ℕ :=
  Nat.sqrt (xp / 50) + 1

/-- The record `calculateLevelProgress` returns. -/
structure LevelProgress where
  level : ℕ
  currentLevelXP : ℕ
  nextLevelXP : ℕ
  xpInLevel : ℤ
  xpForNextLevel : ℕ
  progressPercent : ℤ
deriving DecidableEq

/-- The gamification router's `calculateLevelProgress`: level boundaries
`50*(level-1)^2` and `50*level^2`, and
`progressPercent = Math.min(100, Math.round(xpInLevel / xpForNextLevel * 100))`. -/
def calculateLevelProgress (xp : ℕ) : LevelProgress :=
  let level := calculateLevel xp
  let currentLevelXP : ℕ := 50 * (level - 1) ^ 2
  let nextLevelXP : ℕ := 50 * level ^ 2
  let xpInLevel : ℤ := (xp : ℤ) - (currentLevelXP : ℤ)
  let xpForNextLevel : ℕ := nextLevelXP - currentLevelXP
  let progressPercent :=
    min 100 (jsRound ((xpInLevel : ℚ) / (xpForNextLevel : ℚ) * 100))
  { level := level, currentLevelXP := currentLevelXP, nextLevelXP := nextLevelXP,
    xpInLevel := xpInLevel, xpForNextLevel := xpForNextLevel,
    progressPercent := progressPercent }

end Gamification

namespace Features
/- src/src/features/index.ts. -/

/-- The features module's `calculateLevel`:
`Math.floor(Math.sqrt(xp / 50)) + 1`. -/
def calculateLevel (xp : ℕ) : ℕ :=
  Nat.sqrt (xp / 50) + 1

/-- The current-rank scan of `getRankInfo`: start from `ranks[0]` and walk the
table forward, keeping the latest entry with `minXP ≤ xp`. -/
def scanCurrent (xp : ℕ) (init : Gamification.Rank)
    (table : List Gamification.Rank) : Gamification.Rank :=
  table.foldl (fun cur r => if r.minXP ≤ xp then r else cur) init

end Features

namespace Store
/- src/src/state/stores/habit-store.ts. -/

/-- The xp/level slice of the client store's user object. -/
structure StoreUser where
  xp : ℕ
  level : ℕ
deriving DecidableEq

/-- The `addXP` action: `xp += amount` and the level recomputed inline as
`Math.floor(Math.sqrt(xp / 50)) + 1`. -/
def addXP (u : StoreUser) (amount : ℕ) : StoreUser :=
  { xp := u.xp + amount, level := Nat.sqrt ((u.xp + amount) / 50) + 1 }

end Store

/-- The level formula as the specification words it:
`level(xp) = floor(sqrt(xp / 50)) + 1`. -/
def levelFormulaSpec (xp : ℕ) : ℕ :=
  Nat.sqrt (xp / 50) + 1

/-- The consecutive-completed-day run starting at day `d` and walking backward,
cut off after `fuel` days: the reference walk that tolerates no gap at all. -/
def runFrom (f : ℤ → Bool) : ℕ → ℤ → ℕ
  | 0, _ => 0
  | fuel + 1, d => if f d then 1 + runFrom f fuel (d - 1) else 0

end HabitTracker

namespace HabitTracker

/-! ## Helper lemmas -/

/-- Evaluation rule for `jsRound` at a given integer result. -/
lemma jsRound_eq {q : ℚ} {z : ℤ} (h1 : (z : ℚ) ≤ q + 1/2) (h2 : q + 1/2 < z + 1) :
    jsRound q = z := by
  rw [jsRound, Int.floor_eq_iff]
  exact ⟨h1, by exact_mod_cast h2⟩

/-- Monotonicity of `jsRound`. -/
lemma jsRound_mono {q1 q2 : ℚ} (h : q1 ≤ q2) : jsRound q1 ≤ jsRound q2 :=
  Int.floor_le_floor (by linarith)

namespace Habits

/-- The reward formula with the `let` unfolded. -/
lemma calculateXPReward_def (d : ℤ) :
    calculateXPReward d = (jsRound (10 * multiplier d * 10) : ℚ) / 10 * 10 := rfl

/-- In-range multiplier lookup. -/
lemma multiplier_eq_of_lookup {d : ℤ} {m : ℚ}
    (h : jsIndex multiplierTable (d - 1) = some m) (hm : ¬ m = 0) :
    multiplier d = m := by
  rw [multiplier, h]
  simp [hm]

/-- Out-of-range multiplier lookup falls back to 1. -/
lemma multiplier_eq_of_miss {d : ℤ}
    (h : jsIndex multiplierTable (d - 1) = none) :
    multiplier d = 1 := by
  rw [multiplier, h]

lemma multiplier_three : multiplier 3 = 1 :=
  multiplier_eq_of_lookup rfl (by norm_num)

end Habits

/-! ## C1 -/

/-- C1: the spec claims `calculateXPReward(difficulty)` is `10 × multiplier`
rounded to the nearest multiple of 10 (so 10 at difficulty 3).  The code's
`Math.round(baseXP * multiplier * 10) / 10 * 10` actually evaluates to
`100 × multiplier`: the table of results is 50, 75, 100, 150, 200 — difficulty
3 gives 100 (not 10) and difficulty 2 gives 75, which is not a multiple of 10,
contradicting the function's own `Round to nearest 10` comment. -/
theorem claim_C1_failing_eval :
    Habits.calculateXPReward 1 = 50 ∧ Habits.calculateXPReward 2 = 75 ∧
    Habits.calculateXPReward 3 = 100 ∧ Habits.calculateXPReward 4 = 150 ∧
    Habits.calculateXPReward 5 = 200 ∧ Habits.calculateXPReward 3 ≠ 10 ∧
    ∀ k : ℤ, Habits.calculateXPReward 2 ≠ 10 * (k : ℚ) := by
  have h1 : Habits.calculateXPReward 1 = 50 := by
    rw [Habits.calculateXPReward_def,
      Habits.multiplier_eq_of_lookup (d := 1) (m := 1/2) rfl (by norm_num),
      jsRound_eq (z := 50) (by norm_num) (by norm_num)]
    norm_num
  have h2 : Habits.calculateXPReward 2 = 75 := by
    rw [Habits.calculateXPReward_def,
      Habits.multiplier_eq_of_lookup (d := 2) (m := 3/4) rfl (by norm_num),
      jsRound_eq (z := 75) (by norm_num) (by norm_num)]
    norm_num
  have h3 : Habits.calculateXPReward 3 = 100 := by
    rw [Habits.calculateXPReward_def, Habits.multiplier_three,
      jsRound_eq (z := 100) (by norm_num) (by norm_num)]
    norm_num
  have h4 : Habits.calculateXPReward 4 = 150 := by
    rw [Habits.calculateXPReward_def,
      Habits.multiplier_eq_of_lookup (d := 4) (m := 3/2) rfl (by norm_num),
      jsRound_eq (z := 150) (by norm_num) (by norm_num)]
    norm_num
  have h5 : Habits.calculateXPReward 5 = 200 := by
    rw [Habits.calculateXPReward_def,
      Habits.multiplier_eq_of_lookup (d := 5) (m := 2) rfl (by norm_num),
      jsRound_eq (z := 200) (by norm_num) (by norm_num)]
    norm_num
  refine ⟨h1, h2, h3, h4, h5, by rw [h3]; norm_num, ?_⟩
  intro k hk
  rw [h2] at hk
  have hz : (75 : ℤ) = 10 * k := by exact_mod_cast hk
  omega

/-! ## C9 -/

/-- C9: for every integer difficulty outside `[1, 5]`, the table lookup misses,
`|| 1` substitutes the default multiplier 1, and the reward equals the
difficulty-3 reward. -/
theorem claim_C9 (d : ℤ) (h : d < 1 ∨ 5 < d) :
    Habits.calculateXPReward d = Habits.calculateXPReward 3 := by
  have hmiss : jsIndex Habits.multiplierTable (d - 1) = none := by
    rcases h with h | h
    · rw [jsIndex, if_neg]
      omega
    · rw [jsIndex, if_pos (by omega)]
      apply List.get?_eq_none.mpr
      have : Habits.multiplierTable.length = 5 := rfl
      omega
  rw [Habits.calculateXPReward_def, Habits.calculateXPReward_def,
    Habits.multiplier_eq_of_miss hmiss, Habits.multiplier_three]

/-- Witness for C9 at the concrete out-of-range difficulty 7. -/
theorem claim_C9_witness :
    ((7 : ℤ) < 1 ∨ (5 : ℤ) < 7) ∧
      Habits.calculateXPReward 7 = Habits.calculateXPReward 3 :=
  ⟨Or.inr (by norm_num), claim_C9 7 (Or.inr (by norm_num))⟩

/-! ## C2 -/

/-- Once the user-streak loop is past its first day (`i > 0`), it is exactly
the gap-free consecutive-day walk `runFrom`. -/
lemma userStreakGo_of_pos (f : ℤ → Bool) :
    ∀ (rem i : ℕ) (d : ℤ) (s : ℕ), 0 < i →
      Habits.userStreakGo f rem i d s = s + runFrom f rem d := by
  intro rem
  induction rem with
  | zero => intro i d s _; rfl
  | succ rem ih =>
    intro i d s hi
    rw [Habits.userStreakGo]
    by_cases hf : f d
    · rw [if_pos hf, ih (i + 1) (d - 1) (s + 1) (Nat.succ_pos i), runFrom, if_pos hf]
      omega
    · rw [if_neg hf, if_pos hi, runFrom, if_neg hf]
      omega

/-- One unfolding step of the user-streak loop. -/
lemma userStreakGo_succ (f : ℤ → Bool) (rem i : ℕ) (d : ℤ) (s : ℕ) :
    Habits.userStreakGo f (rem + 1) i d s =
      if f d then Habits.userStreakGo f rem (i + 1) (d - 1) (s + 1)
      else if 0 < i then s
      else Habits.userStreakGo f rem (i + 1) (d - 1) s := rfl

/-- C2 counterexample: completed records today (day 0), yesterday (-1) and
three days ago (-3), with a gap two days ago.  The user-level walk stops at the
gap and returns 2, but the per-habit `calculateStreak` walk also counts the
record at day -3 (its `diffDays === 1` branch fires mid-walk), returning 3 —
not 2 as the claim states. -/
theorem claim_C2_counterexample :
    Habits.calculateStreak [0, -1, -3] 0 = 3 ∧
    Habits.updateUserStreakCount (fun d => decide (d = 0 ∨ d = -1 ∨ d = -3)) 0 = 2 ∧
    Habits.calculateStreak [0, -1, -3] 0 ≠ 2 := by
  refine ⟨by decide, by decide, by decide⟩

/-- C2 amended: the user-level streak walk (`updateUserStreak`) tolerates a
missing day only once, at the start (today): it equals the gap-free
consecutive-day run starting yesterday, plus one if today is completed.  The
per-habit walk (`calculateStreak`) is NOT of this shape: it bridges a one-day
gap at every step, e.g. records on days 0, -1 and -3 give streak 3. -/
theorem claim_C2_amended :
    (∀ (f : ℤ → Bool) (today : ℤ),
        Habits.updateUserStreakCount f today =
          if f today then 1 + runFrom f 364 (today - 1)
          else runFrom f 364 (today - 1)) ∧
    Habits.calculateStreak [0, -1, -3] 0 = 3 := by
  constructor
  · intro f today
    have h0 : Habits.updateUserStreakCount f today =
        Habits.userStreakGo f (364 + 1) 0 today 0 := rfl
    rw [h0, userStreakGo_succ]
    by_cases hf : f today
    · rw [if_pos hf, if_pos hf, userStreakGo_of_pos f 364 1 (today - 1) 1 Nat.one_pos]
    · rw [if_neg hf, if_neg hf, if_neg (lt_irrefl 0),
        userStreakGo_of_pos f 364 1 (today - 1) 0 Nat.one_pos]
      exact Nat.zero_add _
  · decide

/-! ## C3 -/

/-- C3: running the achievement evaluator a second time with the same stats and
the unlocked-id set augmented by exactly the first run's results returns the
empty list — no achievement unlocks twice. -/
theorem claim_C3 (catalog : List Habits.Achievement) (unlockedIds : List String)
    (stats : Habits.UserStats) :
    Habits.checkAchievements catalog
      (unlockedIds ++
        (Habits.checkAchievements catalog unlockedIds stats).map Habits.Achievement.id)
      stats = [] := by
  rw [Habits.checkAchievements]
  apply List.filter_eq_nil.mpr
  intro a ha
  rcases List.mem_filter.mp ha with ⟨hmem, hpass⟩
  simp only [decide_eq_true_eq, List.mem_append] at hpass
  intro hq
  apply hpass
  right
  apply List.mem_map_of_mem
  rw [Habits.checkAchievements]
  exact List.mem_filter.mpr ⟨List.mem_filter.mpr
    ⟨hmem, by simp only [decide_eq_true_eq]; exact fun hmemU => hpass (Or.inl hmemU)⟩, hq⟩

/-! ## C4 -/

/-- C4: whenever `updateUserStreak` actually recomputes (the user has active
habits), the persisted `longestStreak` is `max(previous longestStreak,
new currentStreak)`; and over any sequence of recomputations (with or without
active habits) `longestStreak` never decreases. -/
theorem claim_C4 :
    (∀ (f : ℤ → Bool) (today : ℤ) (u : Habits.UserRec),
        (Habits.updateUserStreak true f today u).longestStreak =
          max u.longestStreak (Habits.updateUserStreak true f today u).currentStreak) ∧
    ∀ (u : Habits.UserRec) (runs : List (Bool × (ℤ → Bool) × ℤ)),
      u.longestStreak ≤
        (runs.foldl (fun acc r => Habits.updateUserStreak r.1 r.2.1 r.2.2 acc)
          u).longestStreak := by
  constructor
  · intro f today u
    simp only [Habits.updateUserStreak, if_pos]
    exact Nat.max_comm _ _
  · intro u runs
    induction runs generalizing u with
    | nil => exact Nat.le_refl _
    | cons r rs ih =>
      refine Nat.le_trans ?_ (ih (Habits.updateUserStreak r.1 r.2.1 r.2.2 u))
      rw [Habits.updateUserStreak]
      by_cases hb : r.1 = true
      · rw [if_pos hb]
        exact Nat.le_max_right _ _
      · rw [if_neg hb]

/-! ## C6 -/

/-- C6: the level is always at least 1 and is monotone in XP. -/
theorem claim_C6 (xp1 xp2 : ℕ) (h : xp1 ≤ xp2) :
    1 ≤ Gamification.calculateLevel xp1 ∧
      Gamification.calculateLevel xp1 ≤ Gamification.calculateLevel xp2 :=
  ⟨Nat.le_add_left 1 _,
    Nat.add_le_add_right (Nat.sqrt_le_sqrt (Nat.div_le_div_right h)) 1⟩

/-- Witness for C6 at xp 120 ≤ 800. -/
theorem claim_C6_witness :
    (120 : ℕ) ≤ 800 ∧ 1 ≤ Gamification.calculateLevel 120 ∧
      Gamification.calculateLevel 120 ≤ Gamification.calculateLevel 800 :=
  ⟨by decide, claim_C6 120 800 (by decide)⟩

/-! ## C10 -/

/-- C10: the four independent copies of the level computation — the users
router, the gamification router, the features module, and the inline recompute
of the client store's `addXP` — all equal `floor(sqrt(xp / 50)) + 1`. -/
theorem claim_C10 :
    (∀ xp : ℕ,
        Habits.calculateLevel xp = levelFormulaSpec xp ∧
        Gamification.calculateLevel xp = levelFormulaSpec xp ∧
        Features.calculateLevel xp = levelFormulaSpec xp) ∧
    ∀ (u : Store.StoreUser) (amount : ℕ),
      (Store.addXP u amount).level = levelFormulaSpec (Store.addXP u amount).xp :=
  ⟨fun _ => ⟨rfl, rfl, rfl⟩, fun _ _ => rfl⟩

/-! ## C5 -/

/-- The last element of a list skips a head when the tail is nonempty. -/
lemma getLast?_cons_ne {α : Type} (a : α) {l : List α} (h : l ≠ []) :
    (a :: l).getLast? = l.getLast? := by
  cases l with
  | nil => exact absurd rfl h
  | cons b t => exact List.getLast?_cons_cons

/-- The downward scan of `getRank` finds the last (highest-indexed) entry
satisfying `minXP ≤ xp`. -/
lemma findFromTop_eq_getLast_filter (xp : ℕ) :
    ∀ l : List Gamification.Rank,
      Gamification.findFromTop xp l =
        (l.filter fun r => decide (r.minXP ≤ xp)).getLast? := by
  intro l
  induction l with
  | nil => rfl
  | cons r rs ih =>
    have hfc : ((r :: rs).filter fun x => decide (x.minXP ≤ xp)) =
        if r.minXP ≤ xp then r :: (rs.filter fun x => decide (x.minXP ≤ xp))
        else rs.filter fun x => decide (x.minXP ≤ xp) := by
      by_cases hr : r.minXP ≤ xp
      · rw [List.filter_cons, if_pos (by simpa using hr), if_pos hr]
      · rw [List.filter_cons, if_neg (by simpa using hr), if_neg hr]
    have hmatch : Gamification.findFromTop xp (r :: rs) =
        match Gamification.findFromTop xp rs with
        | some hit => some hit
        | none => if r.minXP ≤ xp then some r else none := rfl
    rcases hlast : (rs.filter fun x => decide (x.minXP ≤ xp)).getLast? with _ | hit
    · have hnone : Gamification.findFromTop xp rs = none := by rw [ih, hlast]
      have hstep : Gamification.findFromTop xp (r :: rs) =
          if r.minXP ≤ xp then some r else none := by
        rw [hmatch, hnone]
      have hnil := List.getLast?_eq_none_iff.mp hlast
      rw [hstep, hfc, hnil]
      by_cases hr : r.minXP ≤ xp
      · rw [if_pos hr, if_pos hr, List.getLast?_singleton]
      · rw [if_neg hr, if_neg hr]
        rfl
    · have hsome : Gamification.findFromTop xp rs = some hit := by rw [ih, hlast]
      have hstep : Gamification.findFromTop xp (r :: rs) = some hit := by
        rw [hmatch, hsome]
      have hne : (rs.filter fun x => decide (x.minXP ≤ xp)) ≠ [] := by
        intro hnil
        rw [hnil] at hlast
        exact Option.noConfusion hlast
      rw [hstep, hfc]
      by_cases hr : r.minXP ≤ xp
      · rw [if_pos hr, getLast?_cons_ne r hne, hlast]
      · rw [if_neg hr, hlast]

/-- The forward keep-the-latest scan of `getRankInfo` also computes the last
entry satisfying `minXP ≤ xp` (defaulting to its initial value). -/
lemma scanCurrent_eq_getLast_filter (xp : ℕ) :
    ∀ (l : List Gamification.Rank) (init : Gamification.Rank),
      Features.scanCurrent xp init l =
        ((l.filter fun r => decide (r.minXP ≤ xp)).getLast?).getD init := by
  intro l
  induction l with
  | nil => intro init; rfl
  | cons r rs ih =>
    intro init
    have hstep : Features.scanCurrent xp init (r :: rs) =
        Features.scanCurrent xp (if r.minXP ≤ xp then r else init) rs := rfl
    rw [hstep, ih, List.filter_cons]
    by_cases hr : r.minXP ≤ xp
    · rw [if_pos hr, if_pos (by simpa using hr)]
      rcases hlast : (rs.filter fun x => decide (x.minXP ≤ xp)).getLast? with _ | hit
      · have hnil : (rs.filter fun x => decide (x.minXP ≤ xp)) = [] :=
          List.getLast?_eq_none_iff.mp hlast
        rw [hnil, List.getLast?_singleton]
        rfl
      · have hne : (rs.filter fun x => decide (x.minXP ≤ xp)) ≠ [] := by
          intro hnil
          rw [hnil] at hlast
          exact Option.noConfusion hlast
        rw [getLast?_cons_ne r hne, hlast]
        rfl
    · rw [if_neg hr, if_neg (by simpa using hr)]

/-- C5: for every xp and every nonempty threshold table with strictly
increasing `minXP` starting at 0, `getRank` returns the last entry whose
`minXP ≤ xp`; at xp 0 it returns the first entry; and the forward scan of the
features module's `getRankInfo` agrees with it. -/
theorem claim_C5 (xp : ℕ) (r0 : Gamification.Rank) (rest : List Gamification.Rank)
    (hsorted : (r0 :: rest).Pairwise fun a b => a.minXP < b.minXP)
    (h0 : r0.minXP = 0) :
    Gamification.getRank xp (r0 :: rest) =
        ((r0 :: rest).filter fun r => decide (r.minXP ≤ xp)).getLast? ∧
      Gamification.getRank 0 (r0 :: rest) = some r0 ∧
      Gamification.getRank xp (r0 :: rest) =
        some (Features.scanCurrent xp r0 (r0 :: rest)) := by
  have hfilter : ∀ y : ℕ, ((r0 :: rest).filter fun r => decide (r.minXP ≤ y)) =
      r0 :: (rest.filter fun r => decide (r.minXP ≤ y)) := by
    intro y
    rw [List.filter_cons, if_pos]
    simp [h0]
  have hA : ∀ y : ℕ, Gamification.getRank y (r0 :: rest) =
      ((r0 :: rest).filter fun r => decide (r.minXP ≤ y)).getLast? := by
    intro y
    have hne : ((r0 :: rest).filter fun r => decide (r.minXP ≤ y)) ≠ [] := by
      rw [hfilter y]
      exact List.cons_ne_nil _ _
    obtain ⟨x, hx⟩ := Option.isSome_iff_exists.mp (List.getLast?_isSome.mpr hne)
    have hgdef : Gamification.getRank y (r0 :: rest) =
        match Gamification.findFromTop y (r0 :: rest) with
        | some r => some r
        | none => (r0 :: rest).head? := rfl
    rw [hgdef, findFromTop_eq_getLast_filter y (r0 :: rest), hx]
  refine ⟨hA xp, ?_, ?_⟩
  · have hrest0 : (rest.filter fun r => decide (r.minXP ≤ 0)) = [] := by
      apply List.filter_eq_nil.mpr
      intro b hb
      simp only [decide_eq_true_eq]
      have hlt := (List.pairwise_cons.mp hsorted).1 b hb
      omega
    rw [hA 0, hfilter 0, hrest0, List.getLast?_singleton]
  · obtain ⟨x, hx⟩ := Option.isSome_iff_exists.mp (List.getLast?_isSome.mpr
      (by rw [hfilter xp]; exact List.cons_ne_nil _ _ :
        ((r0 :: rest).filter fun r => decide (r.minXP ≤ xp)) ≠ []))
    rw [hA xp, scanCurrent_eq_getLast_filter xp (r0 :: rest) r0, hx]
    rfl

/-- Witness for C5 at xp 150 over the concrete `RANKS` table. -/
theorem claim_C5_witness :
    ((Gamification.unrankedR ::
        [Gamification.bronzeR, Gamification.silverR, Gamification.goldR,
          Gamification.platinumR, Gamification.diamondR, Gamification.masterR,
          Gamification.championR, Gamification.legendR]).Pairwise
        fun a b => a.minXP < b.minXP) ∧
    Gamification.unrankedR.minXP = 0 ∧
    (Gamification.getRank 150 (Gamification.unrankedR ::
        [Gamification.bronzeR, Gamification.silverR, Gamification.goldR,
          Gamification.platinumR, Gamification.diamondR, Gamification.masterR,
          Gamification.championR, Gamification.legendR]) =
        ((Gamification.unrankedR ::
          [Gamification.bronzeR, Gamification.silverR, Gamification.goldR,
            Gamification.platinumR, Gamification.diamondR, Gamification.masterR,
            Gamification.championR, Gamification.legendR]).filter
          fun r => decide (r.minXP ≤ 150)).getLast? ∧
      Gamification.getRank 0 (Gamification.unrankedR ::
        [Gamification.bronzeR, Gamification.silverR, Gamification.goldR,
          Gamification.platinumR, Gamification.diamondR, Gamification.masterR,
          Gamification.championR, Gamification.legendR]) =
        some Gamification.unrankedR ∧
      Gamification.getRank 150 (Gamification.unrankedR ::
        [Gamification.bronzeR, Gamification.silverR, Gamification.goldR,
          Gamification.platinumR, Gamification.diamondR, Gamification.masterR,
          Gamification.championR, Gamification.legendR]) =
        some (Features.scanCurrent 150 Gamification.unrankedR
          (Gamification.unrankedR ::
            [Gamification.bronzeR, Gamification.silverR, Gamification.goldR,
              Gamification.platinumR, Gamification.diamondR, Gamification.masterR,
              Gamification.championR, Gamification.legendR]))) :=
  ⟨by decide, by decide, claim_C5 150 Gamification.unrankedR _ (by decide) (by decide)⟩

/-! ## C8 -/

/-- The `progressPercent` field with the `let`-bindings of
`calculateLevelProgress` unfolded. -/
lemma progressPercent_def (xp : ℕ) :
    (Gamification.calculateLevelProgress xp).progressPercent =
      min 100 (jsRound
        (((((xp : ℤ) -
            ((50 * (Gamification.calculateLevel xp - 1) ^ 2 : ℕ) : ℤ)) : ℤ) : ℚ) /
          ((50 * Gamification.calculateLevel xp ^ 2 -
            50 * (Gamification.calculateLevel xp - 1) ^ 2 : ℕ) : ℚ) * 100)) := rfl

/-- Evaluating `min 100 (jsRound q)` when the result stays under the cap. -/
lemma min100_jsRound_eq {q : ℚ} {z : ℤ} (h : z ≤ 100) (h1 : (z : ℚ) ≤ q + 1/2)
    (h2 : q + 1/2 < z + 1) : min 100 (jsRound q) = z := by
  rw [jsRound_eq h1 h2]
  exact min_eq_right h

/-- The first xp value of level `L` is the boundary `50 * (L - 1)^2`. -/
lemma calculateLevel_boundary (L : ℕ) (hL : 1 ≤ L) :
    Gamification.calculateLevel (50 * (L - 1) ^ 2) = L := by
  rw [Gamification.calculateLevel, Nat.mul_div_cancel_left _ (by norm_num), pow_two,
    Nat.sqrt_eq]
  omega

/-- C8 counterexample: xp 51 and 52 are both level 2, yet their
`progressPercent` values are both 1 (`round(100/150) = round(2·100/150) = 1`),
so `progressPercent` is not STRICTLY monotonic within a level. -/
theorem claim_C8_counterexample :
    (51 : ℕ) < 52 ∧
    Gamification.calculateLevel 51 = Gamification.calculateLevel 52 ∧
    ¬ (Gamification.calculateLevelProgress 51).progressPercent <
        (Gamification.calculateLevelProgress 52).progressPercent := by
  have h51 : (Gamification.calculateLevelProgress 51).progressPercent = 1 := by
    rw [progressPercent_def]
    apply min100_jsRound_eq (by norm_num) <;>
      norm_num [Gamification.calculateLevel]
  have h52 : (Gamification.calculateLevelProgress 52).progressPercent = 1 := by
    rw [progressPercent_def]
    apply min100_jsRound_eq (by norm_num) <;>
      norm_num [Gamification.calculateLevel]
  exact ⟨by norm_num, rfl, by rw [h51, h52]; exact lt_irrefl 1⟩

/-- C8 amended: within one level `progressPercent` is monotonically
NON-strictly increasing in xp (strictness fails, see the counterexample), and
it resets to 0 at the first xp value `50 * (L - 1)^2` of every level `L`. -/
theorem claim_C8_amended :
    (∀ xp1 xp2 : ℕ, xp1 ≤ xp2 →
        Gamification.calculateLevel xp1 = Gamification.calculateLevel xp2 →
        (Gamification.calculateLevelProgress xp1).progressPercent ≤
          (Gamification.calculateLevelProgress xp2).progressPercent) ∧
    ∀ L : ℕ, 1 ≤ L →
      (Gamification.calculateLevelProgress (50 * (L - 1) ^ 2)).progressPercent = 0 := by
  constructor
  · intro xp1 xp2 hle hlev
    rw [progressPercent_def, progressPercent_def, hlev]
    apply min_le_min (le_refl (100 : ℤ))
    apply jsRound_mono
    set L := Gamification.calculateLevel xp2 with hL
    have hL1 : 1 ≤ L := by
      rw [hL]
      exact Nat.le_add_left 1 _
    set a := (L - 1) ^ 2 with ha
    set b := L ^ 2 with hb
    have hab : a < b := by
      rw [ha, hb]
      exact Nat.pow_lt_pow_left (by omega) (by norm_num)
    have hBpos : 0 < 50 * b - 50 * a := by omega
    have hBq : (0 : ℚ) < ((50 * b - 50 * a : ℕ) : ℚ) := by exact_mod_cast hBpos
    apply mul_le_mul_of_nonneg_right _ (by norm_num : (0 : ℚ) ≤ 100)
    apply (div_le_div_iff_of_pos_right hBq).mpr
    have hc : (xp1 : ℚ) ≤ (xp2 : ℚ) := by exact_mod_cast hle
    push_cast
    linarith
  · intro L hL
    rw [progressPercent_def, calculateLevel_boundary L hL]
    apply min100_jsRound_eq (by norm_num)
    · push_cast
      ring_nf
      norm_num
    · push_cast
      ring_nf
      norm_num

/-- Witness for C8 at xp 60 ≤ 70 (both level 2) and level boundary L = 2. -/
theorem claim_C8_witness :
    ((60 : ℕ) ≤ 70 ∧
      Gamification.calculateLevel 60 = Gamification.calculateLevel 70) ∧
    (Gamification.calculateLevelProgress 60).progressPercent ≤
        (Gamification.calculateLevelProgress 70).progressPercent ∧
    (Gamification.calculateLevelProgress (50 * (2 - 1) ^ 2)).progressPercent = 0 :=
  ⟨⟨by norm_num, rfl⟩, claim_C8_amended.1 60 70 (by norm_num) rfl,
    claim_C8_amended.2 2 (by norm_num)⟩

/-! ## C7 -/

/-- Resolving `getNextRank` in the non-terminal case. -/
lemma getNextRank_some_of (xp : ℕ) (cur nxt : Gamification.Rank) (i : ℕ)
    (hrank : Gamification.getRank xp Gamification.RANKS = some cur)
    (hidx : (Gamification.RANKS.findIdx fun r => r.id == cur.id) = i)
    (hne : ¬ i = Gamification.RANKS.length - 1)
    (hget2 : Gamification.RANKS.get? (i + 1) = some nxt) :
    Gamification.getNextRank xp = some
      ⟨nxt, (nxt.minXP : ℤ) - (xp : ℤ),
        jsRound (((xp : ℚ) - (cur.minXP : ℚ)) /
          ((nxt.minXP : ℚ) - (cur.minXP : ℚ)) * 100)⟩ := by
  simp only [Gamification.getNextRank, hrank, hidx]
  rw [if_neg hne, hget2]

/-- Resolving `getNextRank` in the terminal (max-rank) case. -/
lemma getNextRank_none_of (xp : ℕ) (cur : Gamification.Rank)
    (hrank : Gamification.getRank xp Gamification.RANKS = some cur)
    (hidx : (Gamification.RANKS.findIdx fun r => r.id == cur.id) =
      Gamification.RANKS.length - 1) :
    Gamification.getNextRank xp = none := by
  simp only [Gamification.getNextRank, hrank, hidx]
  simp

lemma getRank_eval_unranked (xp : ℕ) (hhi : xp < 100) :
    Gamification.getRank xp Gamification.RANKS = some Gamification.unrankedR := by
  have n8 : ¬ 4000 ≤ xp := by omega
  have n7 : ¬ 3000 ≤ xp := by omega
  have n6 : ¬ 2200 ≤ xp := by omega
  have n5 : ¬ 1500 ≤ xp := by omega
  have n4 : ¬ 1000 ≤ xp := by omega
  have n3 : ¬ 600 ≤ xp := by omega
  have n2 : ¬ 300 ≤ xp := by omega
  have n1 : ¬ 100 ≤ xp := by omega
  simp [Gamification.getRank, Gamification.findFromTop, Gamification.RANKS,
    Gamification.unrankedR, Gamification.bronzeR, Gamification.silverR, Gamification.goldR, Gamification.platinumR, Gamification.diamondR, Gamification.masterR, Gamification.championR, Gamification.legendR, n8, n7, n6, n5, n4, n3, n2, n1]

lemma getRank_eval_bronze (xp : ℕ) (hlo : 100 ≤ xp) (hhi : xp < 300) :
    Gamification.getRank xp Gamification.RANKS = some Gamification.bronzeR := by
  have n8 : ¬ 4000 ≤ xp := by omega
  have n7 : ¬ 3000 ≤ xp := by omega
  have n6 : ¬ 2200 ≤ xp := by omega
  have n5 : ¬ 1500 ≤ xp := by omega
  have n4 : ¬ 1000 ≤ xp := by omega
  have n3 : ¬ 600 ≤ xp := by omega
  have n2 : ¬ 300 ≤ xp := by omega
  simp [Gamification.getRank, Gamification.findFromTop, Gamification.RANKS,
    Gamification.unrankedR, Gamification.bronzeR, Gamification.silverR, Gamification.goldR, Gamification.platinumR, Gamification.diamondR, Gamification.masterR, Gamification.championR, Gamification.legendR, n8, n7, n6, n5, n4, n3, n2, hlo]

lemma getRank_eval_silver (xp : ℕ) (hlo : 300 ≤ xp) (hhi : xp < 600) :
    Gamification.getRank xp Gamification.RANKS = some Gamification.silverR := by
  have n8 : ¬ 4000 ≤ xp := by omega
  have n7 : ¬ 3000 ≤ xp := by omega
  have n6 : ¬ 2200 ≤ xp := by omega
  have n5 : ¬ 1500 ≤ xp := by omega
  have n4 : ¬ 1000 ≤ xp := by omega
  have n3 : ¬ 600 ≤ xp := by omega
  simp [Gamification.getRank, Gamification.findFromTop, Gamification.RANKS,
    Gamification.unrankedR, Gamification.bronzeR, Gamification.silverR, Gamification.goldR, Gamification.platinumR, Gamification.diamondR, Gamification.masterR, Gamification.championR, Gamification.legendR, n8, n7, n6, n5, n4, n3, hlo]

lemma getRank_eval_gold (xp : ℕ) (hlo : 600 ≤ xp) (hhi : xp < 1000) :
    Gamification.getRank xp Gamification.RANKS = some Gamification.goldR := by
  have n8 : ¬ 4000 ≤ xp := by omega
  have n7 : ¬ 3000 ≤ xp := by omega
  have n6 : ¬ 2200 ≤ xp := by omega
  have n5 : ¬ 1500 ≤ xp := by omega
  have n4 : ¬ 1000 ≤ xp := by omega
  simp [Gamification.getRank, Gamification.findFromTop, Gamification.RANKS,
    Gamification.unrankedR, Gamification.bronzeR, Gamification.silverR, Gamification.goldR, Gamification.platinumR, Gamification.diamondR, Gamification.masterR, Gamification.championR, Gamification.legendR, n8, n7, n6, n5, n4, hlo]

lemma getRank_eval_platinum (xp : ℕ) (hlo : 1000 ≤ xp) (hhi : xp < 1500) :
    Gamification.getRank xp Gamification.RANKS = some Gamification.platinumR := by
  have n8 : ¬ 4000 ≤ xp := by omega
  have n7 : ¬ 3000 ≤ xp := by omega
  have n6 : ¬ 2200 ≤ xp := by omega
  have n5 : ¬ 1500 ≤ xp := by omega
  simp [Gamification.getRank, Gamification.findFromTop, Gamification.RANKS,
    Gamification.unrankedR, Gamification.bronzeR, Gamification.silverR, Gamification.goldR, Gamification.platinumR, Gamification.diamondR, Gamification.masterR, Gamification.championR, Gamification.legendR, n8, n7, n6, n5, hlo]

lemma getRank_eval_diamond (xp : ℕ) (hlo : 1500 ≤ xp) (hhi : xp < 2200) :
    Gamification.getRank xp Gamification.RANKS = some Gamification.diamondR := by
  have n8 : ¬ 4000 ≤ xp := by omega
  have n7 : ¬ 3000 ≤ xp := by omega
  have n6 : ¬ 2200 ≤ xp := by omega
  simp [Gamification.getRank, Gamification.findFromTop, Gamification.RANKS,
    Gamification.unrankedR, Gamification.bronzeR, Gamification.silverR, Gamification.goldR, Gamification.platinumR, Gamification.diamondR, Gamification.masterR, Gamification.championR, Gamification.legendR, n8, n7, n6, hlo]

lemma getRank_eval_master (xp : ℕ) (hlo : 2200 ≤ xp) (hhi : xp < 3000) :
    Gamification.getRank xp Gamification.RANKS = some Gamification.masterR := by
  have n8 : ¬ 4000 ≤ xp := by omega
  have n7 : ¬ 3000 ≤ xp := by omega
  simp [Gamification.getRank, Gamification.findFromTop, Gamification.RANKS,
    Gamification.unrankedR, Gamification.bronzeR, Gamification.silverR, Gamification.goldR, Gamification.platinumR, Gamification.diamondR, Gamification.masterR, Gamification.championR, Gamification.legendR, n8, n7, hlo]

lemma getRank_eval_champion (xp : ℕ) (hlo : 3000 ≤ xp) (hhi : xp < 4000) :
    Gamification.getRank xp Gamification.RANKS = some Gamification.championR := by
  have n8 : ¬ 4000 ≤ xp := by omega
  simp [Gamification.getRank, Gamification.findFromTop, Gamification.RANKS,
    Gamification.unrankedR, Gamification.bronzeR, Gamification.silverR, Gamification.goldR, Gamification.platinumR, Gamification.diamondR, Gamification.masterR, Gamification.championR, Gamification.legendR, n8, hlo]

lemma getRank_eval_legend (xp : ℕ) (hlo : 4000 ≤ xp) :
    Gamification.getRank xp Gamification.RANKS = some Gamification.legendR := by
  simp [Gamification.getRank, Gamification.findFromTop, Gamification.RANKS,
    Gamification.unrankedR, Gamification.bronzeR, Gamification.silverR, Gamification.goldR, Gamification.platinumR, Gamification.diamondR, Gamification.masterR, Gamification.championR, Gamification.legendR, hlo]

/-- The C7 statement at a non-terminal current rank. -/
lemma c7_branch (xp : ℕ) (cur nxt : Gamification.Rank) (i : ℕ)
    (hrank : Gamification.getRank xp Gamification.RANKS = some cur)
    (hidx : (Gamification.RANKS.findIdx fun r => r.id == cur.id) = i)
    (hne : ¬ i = Gamification.RANKS.length - 1)
    (hget : Gamification.RANKS.get? i = some cur)
    (hget2 : Gamification.RANKS.get? (i + 1) = some nxt)
    (hcur : cur ≠ Gamification.legendR) :
    (Gamification.getNextRank xp = none ↔
        Gamification.getRank xp Gamification.RANKS = Gamification.RANKS.getLast?) ∧
    ∀ info, Gamification.getNextRank xp = some info →
      ∃ i2 cur2, Gamification.getRank xp Gamification.RANKS = some cur2 ∧
        Gamification.RANKS.get? i2 = some cur2 ∧
        Gamification.RANKS.get? (i2 + 1) = some info.rank ∧
        info.xpRequired = (info.rank.minXP : ℤ) - (xp : ℤ) ∧
        info.progress = jsRound (100 * ((xp : ℚ) - (cur2.minXP : ℚ)) /
          ((info.rank.minXP : ℚ) - (cur2.minXP : ℚ))) := by
  have hsome := getNextRank_some_of xp cur nxt i hrank hidx hne hget2
  constructor
  · apply iff_of_false
    · rw [hsome]
      exact fun hcon => Option.noConfusion hcon
    · rw [hrank, show Gamification.RANKS.getLast? = some Gamification.legendR from rfl]
      intro hcon
      exact hcur (Option.some.inj hcon)
  · intro info hinfo
    rw [hsome] at hinfo
    obtain rfl := Option.some.inj hinfo
    refine ⟨i, cur, hrank, hget, hget2, rfl, ?_⟩
    exact congrArg jsRound (by ring)

/-- C7: `getNextRank` returns `none` exactly when the current rank is the last
`RANKS` entry; otherwise it returns the entry immediately after the current
rank with `xpRequired = nextMinXP - xp` and
`progress = round(100*(xp - minXP)/(nextMinXP - minXP))`. -/
theorem claim_C7 (xp : ℕ) :
    (Gamification.getNextRank xp = none ↔
        Gamification.getRank xp Gamification.RANKS = Gamification.RANKS.getLast?) ∧
    ∀ info, Gamification.getNextRank xp = some info →
      ∃ i cur, Gamification.getRank xp Gamification.RANKS = some cur ∧
        Gamification.RANKS.get? i = some cur ∧
        Gamification.RANKS.get? (i + 1) = some info.rank ∧
        info.xpRequired = (info.rank.minXP : ℤ) - (xp : ℤ) ∧
        info.progress = jsRound (100 * ((xp : ℚ) - (cur.minXP : ℚ)) /
          ((info.rank.minXP : ℚ) - (cur.minXP : ℚ))) := by
  rcases le_or_lt 4000 xp with h8 | h8
  · have hrank := getRank_eval_legend xp h8
    have hnone := getNextRank_none_of xp Gamification.legendR hrank (by decide)
    refine ⟨iff_of_true hnone (by rw [hrank]; rfl), ?_⟩
    intro info hinfo
    rw [hnone] at hinfo
    exact Option.noConfusion hinfo
  · rcases le_or_lt 3000 xp with h7 | h7
    · exact c7_branch xp Gamification.championR Gamification.legendR 7
        (getRank_eval_champion xp h7 h8) (by decide) (by decide) (by decide)
        (by decide) (by decide)
    · rcases le_or_lt 2200 xp with h6 | h6
      · exact c7_branch xp Gamification.masterR Gamification.championR 6
          (getRank_eval_master xp h6 h7) (by decide) (by decide) (by decide)
          (by decide) (by decide)
      · rcases le_or_lt 1500 xp with h5 | h5
        · exact c7_branch xp Gamification.diamondR Gamification.masterR 5
            (getRank_eval_diamond xp h5 h6) (by decide) (by decide) (by decide)
            (by decide) (by decide)
        · rcases le_or_lt 1000 xp with h4 | h4
          · exact c7_branch xp Gamification.platinumR Gamification.diamondR 4
              (getRank_eval_platinum xp h4 h5) (by decide) (by decide) (by decide)
              (by decide) (by decide)
          · rcases le_or_lt 600 xp with h3 | h3
            · exact c7_branch xp Gamification.goldR Gamification.platinumR 3
                (getRank_eval_gold xp h3 h4) (by decide) (by decide) (by decide)
                (by decide) (by decide)
            · rcases le_or_lt 300 xp with h2 | h2
              · exact c7_branch xp Gamification.silverR Gamification.goldR 2
                  (getRank_eval_silver xp h2 h3) (by decide) (by decide) (by decide)
                  (by decide) (by decide)
              · rcases le_or_lt 100 xp with h1 | h1
                · exact c7_branch xp Gamification.bronzeR Gamification.silverR 1
                    (getRank_eval_bronze xp h1 h2) (by decide) (by decide) (by decide)
                    (by decide) (by decide)
                · exact c7_branch xp Gamification.unrankedR Gamification.bronzeR 0
                    (getRank_eval_unranked xp h1) (by decide) (by decide) (by decide)
                    (by decide) (by decide)

/-- Witness for C7 at xp 150 (current rank Bronze, next rank Silver). -/
theorem claim_C7_witness :
    ∃ i cur, Gamification.getRank 150 Gamification.RANKS = some cur ∧
      Gamification.RANKS.get? i = some cur ∧
      Gamification.RANKS.get? (i + 1) = some Gamification.silverR ∧
      ((Gamification.silverR.minXP : ℤ) - ((150 : ℕ) : ℤ)) =
        ((Gamification.silverR.minXP : ℤ) - ((150 : ℕ) : ℤ)) ∧
      jsRound ((((150 : ℕ) : ℚ) - (Gamification.bronzeR.minXP : ℚ)) /
          ((Gamification.silverR.minXP : ℚ) - (Gamification.bronzeR.minXP : ℚ)) * 100) =
        jsRound (100 * (((150 : ℕ) : ℚ) - (cur.minXP : ℚ)) /
          ((Gamification.silverR.minXP : ℚ) - (cur.minXP : ℚ))) := by
  have hinfo : Gamification.getNextRank 150 = some
      ⟨Gamification.silverR,
        (Gamification.silverR.minXP : ℤ) - ((150 : ℕ) : ℤ),
        jsRound ((((150 : ℕ) : ℚ) - (Gamification.bronzeR.minXP : ℚ)) /
          ((Gamification.silverR.minXP : ℚ) - (Gamification.bronzeR.minXP : ℚ)) * 100)⟩ :=
    getNextRank_some_of 150 Gamification.bronzeR Gamification.silverR 1
      (getRank_eval_bronze 150 (by norm_num) (by norm_num)) (by decide) (by decide)
      (by decide)
  exact (claim_C7 150).2 _ hinfo

end HabitTracker
